import Mathlib

/-!
Verification development for the expense-dashboard repository (src/app.py).

The program keeps a ledger of transactions in a pandas DataFrame with columns
`Date, Type, Category, Description, Amount (PKR)`.  `load_data` (app.py:45-57)
parses the CSV (dates via `parse_dates`, amounts via `pd.to_numeric(...,
errors="coerce")`), sorts by date and derives `Year`/`Month` columns.  The
dashboard body (app.py:62-135) filters the ledger to a selected (year, month),
computes scalar sums, per-category breakdowns and a cumulative-balance series.

We embed the ledger as a `List Row` and each aggregation as an executable
function that mirrors the corresponding pandas expression:

* a missing (NaN) amount is `Option.none`; pandas `.sum()` skips NaN, which is
  `List.filterMap (·.amount)` followed by `List.sum`;
* `filtered_df["Date"].max()` on an empty frame is NaT, and `date <= NaT` is
  False everywhere; we model the cutoff as an `Option Date` with `dateLeOpt`
  returning `false` for `none`;
* pandas `cumsum()` leaves NaN entries as NaN and keeps accumulating past
  them, which is `cumsum` below;
* amounts are modelled with exact integers (`Int`), dates as
  year/month/day triples ordered lexicographically.
-/

/-! ## Data model and aggregation (app.py:49-124) -/

/-- A calendar date as produced by parsing the `Date` column. -/
structure Date where
  year : Int
  month : Nat
  day : Nat
deriving DecidableEq

/-- Lexicographic order on dates, mirroring chronological comparison of
pandas timestamps. -/
def dateLe (a b : Date) : Bool :=
  decide (a.year < b.year) ||
    (decide (a.year = b.year) &&
      (decide (a.month < b.month) ||
        (decide (a.month = b.month) && decide (a.day ≤ b.day))))

/-- `df["Month"] = df["Date"].dt.month_name()` (app.py:53). -/
def monthName : Nat → String
  | 1 => "January"
  | 2 => "February"
  | 3 => "March"
  | 4 => "April"
  | 5 => "May"
  | 6 => "June"
  | 7 => "July"
  | 8 => "August"
  | 9 => "September"
  | 10 => "October"
  | 11 => "November"
  | 12 => "December"
  | _ => ""

/-- Numeric index of a month name (inverse of `monthName` on 1..12); used only
to state that a list of month names is in chronological order. -/
def monthIndex : String → Nat
  | "January" => 1
  | "February" => 2
  | "March" => 3
  | "April" => 4
  | "May" => 5
  | "June" => 6
  | "July" => 7
  | "August" => 8
  | "September" => 9
  | "October" => 10
  | "November" => 11
  | "December" => 12
  | _ => 0

/-- One ledger row after `load_data`: parsed date, raw `Type`, `Category`,
`Description` strings, and the coerced numeric amount (`none` when
`pd.to_numeric(..., errors="coerce")` produced NaN). -/
structure Row where
  date : Date
  type : String
  category : String
  description : String
  amount : Option Int
deriving DecidableEq

/-- The derived `Year` column (app.py:52). -/
def rowYear (r : Row) : Int := r.date.year

/-- The derived `Month` column (app.py:53). -/
def rowMonth (r : Row) : String := monthName r.date.month

/-- pandas `series.sum()` with the default `skipna=True`: NaN (i.e. `none`)
amounts are skipped, the empty sum is 0. -/
def sumOpt (L : List Row) : Int := (L.filterMap (·.amount)).sum

/-- `filtered_df = df[(df["Year"] == selected_year) & (df["Month"] == selected_month)]`
(app.py:66). -/
def filtered_df (df : List Row) (y : Int) (m : String) : List Row :=
  df.filter (fun r => rowYear r == y && rowMonth r == m)

/-- Chronological maximum of two dates. -/
def dmax (d e : Date) : Date := if dateLe d e then e else d

/-- `series.max()` over a list of dates: `none` models NaT on an empty frame. -/
def maxDate : List Date → Option Date
  | [] => none
  | d :: ds => some (ds.foldl dmax d)

/-- `filtered_df["Date"].max()` (app.py:71-72). -/
def periodEnd (df : List Row) (y : Int) (m : String) : Option Date :=
  maxDate ((filtered_df df y m).map (·.date))

/-- `date <= cutoff` where the cutoff may be NaT: comparisons against NaT are
False in pandas. -/
def dateLeOpt (d : Date) : Option Date → Bool
  | none => false
  | some e => dateLe d e

/-- `initial_investment = df[df["Type"] == "Initial"]["Amount"].sum()` (app.py:70). -/
def initial_investment (df : List Row) : Int :=
  sumOpt (df.filter (fun r => r.type == "Initial"))

/-- `income_till_now = df[(df["Date"] <= filtered_df["Date"].max()) & (df["Type"] == "Income")]["Amount"].sum()`
(app.py:71). -/
def income_till_now (df : List Row) (y : Int) (m : String) : Int :=
  sumOpt (df.filter (fun r => dateLeOpt r.date (periodEnd df y m) && r.type == "Income"))

/-- `expense_till_now` (app.py:72), analogous to `income_till_now`. -/
def expense_till_now (df : List Row) (y : Int) (m : String) : Int :=
  sumOpt (df.filter (fun r => dateLeOpt r.date (periodEnd df y m) && r.type == "Expense"))

/-- `current_balance = initial_investment + income_till_now - expense_till_now`
(app.py:73). -/
def current_balance (df : List Row) (y : Int) (m : String) : Int :=
  initial_investment df + income_till_now df y m - expense_till_now df y m

/-! ## Selector and breakdown helpers -/

/-- First-occurrence deduplication, as performed by pandas `Series.unique()`. -/
def uniqueFirstAux [DecidableEq α] (seen : List α) : List α → List α
  | [] => []
  | a :: l => if a ∈ seen then uniqueFirstAux seen l else a :: uniqueFirstAux (a :: seen) l

/-- pandas `Series.unique()`: distinct values in order of first occurrence. -/
def uniqueFirst [DecidableEq α] (l : List α) : List α := uniqueFirstAux [] l

/-- `groupby("Category")["Amount"].sum()` (app.py:116,124): one (category, sum)
pair per category occurring in `L`.  pandas emits the groups sorted by key;
no claim depends on the order of the pairs, so we keep first-occurrence order. -/
def byCatSum (L : List Row) : List (String × Int) :=
  (uniqueFirst (L.map (·.category))).map
    (fun c => (c, sumOpt (L.filter (fun r => r.category == c))))

/-- `income_df = filtered_df[filtered_df["Type"] == "Income"]` (app.py:67). -/
def income_df (df : List Row) (y : Int) (m : String) : List Row :=
  (filtered_df df y m).filter (fun r => r.type == "Income")

/-- `expense_df = filtered_df[filtered_df["Type"] == "Expense"]` (app.py:68). -/
def expense_df (df : List Row) (y : Int) (m : String) : List Row :=
  (filtered_df df y m).filter (fun r => r.type == "Expense")

/-- `income_by_cat = income_df.groupby("Category")["Amount"].sum()` (app.py:124). -/
def income_by_cat (df : List Row) (y : Int) (m : String) : List (String × Int) :=
  byCatSum (income_df df y m)

/-- `expense_by_cat = expense_df.groupby("Category")["Amount"].sum().abs()`
(app.py:116): the absolute value is applied to each per-category sum. -/
def expense_by_cat (df : List Row) (y : Int) (m : String) : List (String × Int) :=
  (uniqueFirst ((expense_df df y m).map (·.category))).map
    (fun c => (c, |sumOpt ((expense_df df y m).filter (fun r => r.category == c))|))

/-- pandas `Series.cumsum()` with the default `skipna=True`: a NaN entry stays
NaN in the output and the accumulator carries on past it. -/
def cumsum (acc : Int) : List (Option Int) → List (Option Int)
  | [] => []
  | none :: xs => none :: cumsum acc xs
  | some a :: xs => some (acc + a) :: cumsum (acc + a) xs

/-- `flow_data["Cumulative Balance"] = flow_data["Amount"].cumsum()` over
`flow_data = filtered_df.copy()` (app.py:96-97). -/
def cumulative_balance (df : List Row) (y : Int) (m : String) : List (Option Int) :=
  cumsum 0 ((filtered_df df y m).map (·.amount))

/-- `sorted(df["Year"].unique(), reverse=True)` (app.py:63). -/
def availableYears (df : List Row) : List Int :=
  List.insertionSort (fun a b => b ≤ a) (uniqueFirst (df.map rowYear))

/-- `df[df["Year"] == selected_year]["Month"].unique()` (app.py:64). -/
def availableMonths (df : List Row) (y : Int) : List String :=
  uniqueFirst ((df.filter (fun r => rowYear r == y)).map rowMonth)

/-! ## Auxiliary definitions -/

/-- Sum of the present values of a list of optional integers. -/
def osum (xs : List (Option Int)) : Int := (xs.filterMap id).sum

instance : IsTotal Int (fun a b => b ≤ a) := ⟨fun a b => le_total b a⟩

instance : IsTrans Int (fun a b => b ≤ a) := ⟨fun _ _ _ h1 h2 => le_trans h2 h1⟩

/-! ## The load pipeline (`load_data`, app.py:44-57) -/

/-- Value of a digit string; `none` on empty or non-digit input. -/
def digitsToNat (cs : List Char) : Option Nat :=
  if cs = [] then none
  else cs.foldl
    (fun acc c => acc.bind (fun n => if c.isDigit then some (n * 10 + (c.toNat - 48)) else none))
    (some 0)

/-- Split a character list at every '-'. -/
def splitDash : List Char → List (List Char)
  | [] => [[]]
  | c :: rest =>
    if c = '-' then [] :: splitDash rest
    else
      match splitDash rest with
      | [] => [[c]]
      | g :: gs => (c :: g) :: gs

/-- Date parsing as performed by `pd.read_csv(..., parse_dates=["Date"])`,
modelled for ISO `YYYY-MM-DD` strings (the sheet's date format); any other
string counts as unparseable. -/
def parseDate (s : String) : Option Date :=
  match splitDash s.data with
  | [ys, ms, ds] =>
    match digitsToNat ys, digitsToNat ms, digitsToNat ds with
    | some yy, some mm, some dd =>
      if 1 ≤ mm ∧ mm ≤ 12 ∧ 1 ≤ dd ∧ dd ≤ 31 then some ⟨(yy : Int), mm, dd⟩ else none
    | _, _, _ => none
  | _ => none

/-- `pd.to_numeric(..., errors="coerce")` on one cell, modelled for integer
literals: NaN (`none`) for anything else. -/
def parseAmount (s : String) : Option Int :=
  match s.data with
  | '-' :: rest => (digitsToNat rest).map (fun n => -(n : Int))
  | cs => (digitsToNat cs).map (fun n => (n : Int))

/-- A raw CSV table: the header (column names) and the data rows, the cells of
each row corresponding positionally to `cols`. -/
structure RawTable where
  cols : List String
  rows : List (List String)

/-- Index of a column name in the header. -/
def colIndex (name : String) : List String → Option Nat
  | [] => none
  | c :: cs => if c = name then some 0 else (colIndex name cs).map (· + 1)

/-- Cell of a raw row under a named column (`none` if the column is absent or
the row is short). -/
def getCell (cols row : List String) (name : String) : Option String :=
  (colIndex name cols).bind (fun i => row[i]?)

/-- The parsed `Date` cell of a raw row. -/
def parseDateCell (cols row : List String) : Option Date :=
  (getCell cols row "Date").bind parseDate

/-- The ordering used by `df.sort_values("Date")` (app.py:50). -/
def rowLe (a b : Row) : Prop := dateLe a.date b.date = true

instance : DecidableRel rowLe := fun _ _ => inferInstanceAs (Decidable (_ = true))

/-- One `Row` built from a raw data row (only used when its date parses). -/
def mkRow (cols row : List String) : Row :=
  { date := (parseDateCell cols row).getD ⟨0, 1, 1⟩
    type := (getCell cols row "Type").getD ""
    category := (getCell cols row "Category").getD ""
    description := (getCell cols row "Description").getD ""
    amount := (getCell cols row "Amount (PKR)").bind parseAmount }

/-- Whether an `Except` result is a success. -/
def isOkB : Except ε α → Bool
  | Except.ok _ => true
  | Except.error _ => false

/-- The body of the `try:` block of `load_data` (app.py:48-54):

* `pd.read_csv(url, parse_dates=["Date"])` raises when the `Date` column is
  absent; when any `Date` cell fails to parse, the column is left as plain
  strings and `df["Date"].dt.year` (app.py:52) raises instead;
* `df["Amount (PKR)"]` (app.py:51) raises `KeyError` when that column is
  absent;
* otherwise every raw row yields one ledger row — dates parsed, amounts
  coerced with NaN for non-numeric cells — and the frame is sorted by date.

Only the error-versus-success split matters to the caller, which catches every
exception alike (app.py:55-57); which statement raises first, and the message,
are not distinguished here. -/
def load_data_core (t : RawTable) : Except String (List Row) :=
  if "Date" ∈ t.cols then
    if t.rows.all (fun row => (parseDateCell t.cols row).isSome) then
      if "Amount (PKR)" ∈ t.cols then
        Except.ok (List.insertionSort rowLe (t.rows.map (mkRow t.cols)))
      else Except.error "KeyError: Amount (PKR)"
    else Except.error "Can only use .dt accessor with datetimelike values"
  else Except.error "Missing column provided to parse_dates: Date"

/-- `load_data` (app.py:44-57) as seen by its caller: the `except` clause
reports the failure through the UI and returns an empty DataFrame instead of
propagating the exception. -/
def load_data (t : RawTable) : List Row :=
  match load_data_core t with
  | Except.ok l => l
  | Except.error _ => []

/-! ## Concrete example data used by the claim theorems -/

/-- The raw table used to refute C2 as stated: it lacks the required columns
`Type`, `Category`, `Description` and every row's date parses. -/
def c2table : RawTable := ⟨["Date", "Amount (PKR)"], [["2024-01-05", "100"]]⟩

/-- Example rows for the C4 witness: a missing-amount expense row between two
priced rows of the same period. -/
def c4bad : Row := ⟨⟨2024, 1, 7⟩, "Expense", "Food", "", none⟩

/-- First neighbour row for the C4 witness. -/
def c4a : Row := ⟨⟨2024, 1, 5⟩, "Income", "Salary", "", some 5000⟩

/-- Second neighbour row for the C4 witness. -/
def c4b : Row := ⟨⟨2024, 1, 10⟩, "Expense", "Food", "", some 1200⟩

/-- The one-row ledger used in the C5 witness. -/
def c5df : List Row := [⟨⟨2024, 1, 5⟩, "Income", "Salary", "", some 5000⟩]

/-- The late `Initial` row used in the C7 witness (dated December, after the
selected period). -/
def c7r : Row := ⟨⟨2024, 12, 31⟩, "Initial", "", "", some 100⟩

/-- The January income row used in the C7 witness. -/
def c7a : Row := ⟨⟨2024, 1, 5⟩, "Income", "Salary", "", some 7⟩

/-- Expense row (category A, +5) for the C6 counterexample. -/
def c6e1 : Row := ⟨⟨2024, 1, 3⟩, "Expense", "A", "", some 5⟩

/-- Expense row (category A, -3) for the C6 counterexample. -/
def c6e2 : Row := ⟨⟨2024, 1, 4⟩, "Expense", "A", "", some (-3)⟩

/-- Expense row (category B, -4) for the C6 counterexample. -/
def c6e3 : Row := ⟨⟨2024, 1, 6⟩, "Expense", "B", "", some (-4)⟩

/-- The three-expense ledger for the C6 counterexample. -/
def c6df : List Row := [c6e1, c6e2, c6e3]

/-- Nonnegative-amount ledger for the C6 witness. -/
def c6pos : List Row :=
  [⟨⟨2024, 1, 5⟩, "Income", "Salary", "", some 5000⟩,
   ⟨⟨2024, 1, 10⟩, "Expense", "Food", "", some 1200⟩]

/-- One-row period whose only amount is missing, refuting C8's final-value
clause. -/
def c8df : List Row := [⟨⟨2024, 1, 5⟩, "Expense", "X", "", none⟩]

/-- Two-row period with present amounts for the C8 witness. -/
def c8good : List Row :=
  [⟨⟨2024, 1, 5⟩, "Income", "S", "", some 5⟩,
   ⟨⟨2024, 1, 9⟩, "Expense", "F", "", some 2⟩]

/-- Three-row, two-year sorted ledger for the C9 witness. -/
def c9df : List Row :=
  [⟨⟨2024, 1, 5⟩, "Income", "S", "", some 1⟩,
   ⟨⟨2024, 2, 6⟩, "Expense", "F", "", some 2⟩,
   ⟨⟨2025, 3, 1⟩, "Income", "S", "", some 3⟩]

/-- The January income row of the C10 scenario. -/
def c10inc : Row := ⟨⟨2024, 1, 5⟩, "Income", "Salary", "", some 7⟩

/-- The February row of unrecognized type with a missing amount that extends
`periodEnd` in the C10 scenario. -/
def c10note : Row := ⟨⟨2024, 2, 20⟩, "Note", "", "", none⟩

/-- The two-row ledger of the C10 scenario. -/
def c10df : List Row := [c10inc, c10note]

/-! ## Support lemmas: the date order -/

theorem dateLe_iff (a b : Date) :
    dateLe a b = true ↔
      (a.year < b.year ∨
        (a.year = b.year ∧
          (a.month < b.month ∨ (a.month = b.month ∧ a.day ≤ b.day)))) := by
  simp [dateLe]

theorem dateLe_refl (a : Date) : dateLe a a = true := by
  simp [dateLe_iff]

theorem dateLe_total (a b : Date) : dateLe a b = true ∨ dateLe b a = true := by
  simp only [dateLe_iff]
  omega

theorem dateLe_trans {a b c : Date} (h1 : dateLe a b = true)
    (h2 : dateLe b c = true) : dateLe a c = true := by
  simp only [dateLe_iff] at h1 h2 ⊢
  omega

/-! ## Support lemmas: month names -/

theorem monthIndex_monthName {m : Nat} (h1 : 1 ≤ m) (h2 : m ≤ 12) :
    monthIndex (monthName m) = m := by
  interval_cases m <;> rfl

/-! ## Support lemmas: skip-NaN sums -/

theorem sumOpt_nil : sumOpt [] = 0 := rfl

theorem sumOpt_cons_none {r : Row} (h : r.amount = none) (L : List Row) :
    sumOpt (r :: L) = sumOpt L := by
  simp [sumOpt, List.filterMap_cons, h]

theorem sumOpt_cons_some {r : Row} {a : Int} (h : r.amount = some a) (L : List Row) :
    sumOpt (r :: L) = a + sumOpt L := by
  simp [sumOpt, List.filterMap_cons, h]

theorem sumOpt_append (A B : List Row) : sumOpt (A ++ B) = sumOpt A + sumOpt B := by
  simp [sumOpt]

theorem sumOpt_filter_split (p : Row → Bool) (L : List Row) :
    sumOpt L = sumOpt (L.filter p) + sumOpt (L.filter (fun r => !(p r))) := by
  induction L with
  | nil => rfl
  | cons r L ih =>
    cases hp : p r
    · have e1 : (r :: L).filter p = L.filter p := by simp [List.filter_cons, hp]
      have e2 : (r :: L).filter (fun r => !(p r)) = r :: L.filter (fun r => !(p r)) := by
        simp [List.filter_cons, hp]
      rcases ha : r.amount with _ | a
      · rw [e1, e2, sumOpt_cons_none ha, sumOpt_cons_none ha, ih]
      · rw [e1, e2, sumOpt_cons_some ha, sumOpt_cons_some ha, ih]; omega
    · have e1 : (r :: L).filter p = r :: L.filter p := by simp [List.filter_cons, hp]
      have e2 : (r :: L).filter (fun r => !(p r)) = L.filter (fun r => !(p r)) := by
        simp [List.filter_cons, hp]
      rcases ha : r.amount with _ | a
      · rw [e1, e2, sumOpt_cons_none ha, sumOpt_cons_none ha, ih]
      · rw [e1, e2, sumOpt_cons_some ha, sumOpt_cons_some ha, ih]; omega

theorem sumOpt_nonneg {L : List Row}
    (h : ∀ r ∈ L, ∀ a : Int, r.amount = some a → 0 ≤ a) : 0 ≤ sumOpt L := by
  induction L with
  | nil => simp [sumOpt_nil]
  | cons r L ih =>
    have ih' := ih (fun r' hr' => h r' (List.mem_cons_of_mem _ hr'))
    rcases ha : r.amount with _ | a
    · rw [sumOpt_cons_none ha]; exact ih'
    · rw [sumOpt_cons_some ha]
      have := h r (List.mem_cons_self _ _) a ha
      omega

/-! ## Support lemmas: the date maximum (`periodEnd`) -/

theorem dateLe_dmax_left (d e : Date) : dateLe d (dmax d e) = true := by
  cases h : dateLe d e
  · simpa [dmax, h] using dateLe_refl d
  · simp [dmax, h]

theorem dateLe_dmax_right (d e : Date) : dateLe e (dmax d e) = true := by
  cases h : dateLe d e
  · rcases dateLe_total d e with h1 | h1
    · rw [h] at h1; cases h1
    · simpa [dmax, h] using h1
  · simpa [dmax, h] using dateLe_refl e

theorem dmax_cases (d e : Date) : dmax d e = d ∨ dmax d e = e := by
  unfold dmax; split <;> simp

theorem foldl_dmax_le_init : ∀ (ds : List Date) (d : Date),
    dateLe d (ds.foldl dmax d) = true
  | [], d => dateLe_refl d
  | e :: ds, d =>
    dateLe_trans (dateLe_dmax_left d e) (foldl_dmax_le_init ds (dmax d e))

theorem foldl_dmax_le_mem : ∀ (ds : List Date) (d e : Date), e ∈ ds →
    dateLe e (ds.foldl dmax d) = true
  | f :: ds, d, e, h => by
    rcases List.mem_cons.mp h with rfl | h'
    · exact dateLe_trans (dateLe_dmax_right d e) (foldl_dmax_le_init ds (dmax d e))
    · exact foldl_dmax_le_mem ds (dmax d f) e h'

theorem foldl_dmax_mem : ∀ (ds : List Date) (d : Date),
    ds.foldl dmax d = d ∨ ds.foldl dmax d ∈ ds
  | [], _ => Or.inl rfl
  | e :: ds, d => by
    rcases foldl_dmax_mem ds (dmax d e) with h | h
    · rcases dmax_cases d e with h2 | h2
      · left; rw [List.foldl_cons, h, h2]
      · right; rw [List.foldl_cons, h, h2]; exact List.mem_cons_self _ _
    · right; exact List.mem_cons_of_mem _ h

theorem periodEnd_dominates (df : List Row) (y : Int) (m : String) {r : Row}
    (h : r ∈ filtered_df df y m) : dateLeOpt r.date (periodEnd df y m) = true := by
  have hmem : r.date ∈ (filtered_df df y m).map (·.date) := List.mem_map_of_mem _ h
  unfold periodEnd
  rcases hL : (filtered_df df y m).map (·.date) with _ | ⟨d, ds⟩
  · rw [hL] at hmem; cases hmem
  · rw [hL] at hmem
    rw [hL]
    show dateLe r.date (ds.foldl dmax d) = true
    rcases List.mem_cons.mp hmem with h1 | h1
    · rw [h1]; exact foldl_dmax_le_init ds d
    · exact foldl_dmax_le_mem ds d _ h1

theorem periodEnd_attained (df : List Row) (y : Int) (m : String)
    (h : filtered_df df y m ≠ []) :
    ∃ r ∈ filtered_df df y m, periodEnd df y m = some r.date := by
  unfold periodEnd
  rcases hL : filtered_df df y m with _ | ⟨r0, rs⟩
  · exact absurd hL h
  · simp only [List.map_cons, maxDate]
    rcases foldl_dmax_mem (rs.map (·.date)) r0.date with h1 | h1
    · exact ⟨r0, List.mem_cons_self _ _, by rw [h1]⟩
    · rcases List.mem_map.mp h1 with ⟨r1, hr1, hd⟩
      exact ⟨r1, List.mem_cons_of_mem _ hr1, by rw [hd]⟩

/-! ## Support lemmas: `uniqueFirst` (pandas `unique()`) -/

theorem mem_uniqueFirstAux [DecidableEq α] (x : α) :
    ∀ (l seen : List α), x ∈ uniqueFirstAux seen l ↔ (x ∈ l ∧ x ∉ seen)
  | [], seen => by simp [uniqueFirstAux]
  | a :: l, seen => by
    by_cases ha : a ∈ seen
    · simp only [uniqueFirstAux, if_pos ha, mem_uniqueFirstAux x l seen]
      constructor
      · rintro ⟨h1, h2⟩; exact ⟨List.mem_cons_of_mem _ h1, h2⟩
      · rintro ⟨h1, h2⟩
        rcases List.mem_cons.mp h1 with rfl | h1
        · exact absurd ha h2
        · exact ⟨h1, h2⟩
    · simp only [uniqueFirstAux, if_neg ha]
      constructor
      · intro hx
        rcases List.mem_cons.mp hx with rfl | hx
        · exact ⟨List.mem_cons_self _ _, ha⟩
        · rcases (mem_uniqueFirstAux x l (a :: seen)).mp hx with ⟨h1, h2⟩
          exact ⟨List.mem_cons_of_mem _ h1, fun hs => h2 (List.mem_cons_of_mem _ hs)⟩
      · rintro ⟨h1, h2⟩
        rcases List.mem_cons.mp h1 with rfl | h1
        · exact List.mem_cons_self _ _
        · by_cases hxa : x = a
          · subst hxa; exact List.mem_cons_self _ _
          · refine List.mem_cons_of_mem _ ((mem_uniqueFirstAux x l (a :: seen)).mpr ⟨h1, ?_⟩)
            intro hs
            rcases List.mem_cons.mp hs with h | h
            · exact hxa h
            · exact h2 h

theorem uniqueFirstAux_sublist [DecidableEq α] :
    ∀ (l seen : List α), List.Sublist (uniqueFirstAux seen l) l
  | [], _ => List.Sublist.refl _
  | a :: l, seen => by
    by_cases ha : a ∈ seen
    · simp only [uniqueFirstAux, if_pos ha]
      exact (uniqueFirstAux_sublist l seen).cons a
    · simp only [uniqueFirstAux, if_neg ha]
      exact (uniqueFirstAux_sublist l (a :: seen)).cons₂ a

theorem nodup_uniqueFirstAux [DecidableEq α] :
    ∀ (l seen : List α), (uniqueFirstAux seen l).Nodup
  | [], _ => List.nodup_nil
  | a :: l, seen => by
    by_cases ha : a ∈ seen
    · simp only [uniqueFirstAux, if_pos ha]; exact nodup_uniqueFirstAux l seen
    · simp only [uniqueFirstAux, if_neg ha]
      refine List.nodup_cons.mpr ⟨?_, nodup_uniqueFirstAux l (a :: seen)⟩
      intro hmem
      exact ((mem_uniqueFirstAux a l (a :: seen)).mp hmem).2 (List.mem_cons_self _ _)

theorem mem_uniqueFirst [DecidableEq α] {x : α} {l : List α} :
    x ∈ uniqueFirst l ↔ x ∈ l := by
  simp [uniqueFirst, mem_uniqueFirstAux]

theorem uniqueFirst_sublist [DecidableEq α] (l : List α) : List.Sublist (uniqueFirst l) l :=
  uniqueFirstAux_sublist l []

theorem nodup_uniqueFirst [DecidableEq α] (l : List α) : (uniqueFirst l).Nodup :=
  nodup_uniqueFirstAux l []

/-! ## Support lemmas: `cumsum` (pandas `cumsum()`) -/

theorem cumsum_length : ∀ (acc : Int) (xs : List (Option Int)),
    (cumsum acc xs).length = xs.length
  | _, [] => rfl
  | acc, none :: xs => by simp [cumsum, cumsum_length acc xs]
  | acc, some a :: xs => by simp [cumsum, cumsum_length (acc + a) xs]

theorem cumsum_append : ∀ (acc : Int) (A B : List (Option Int)),
    cumsum acc (A ++ B) = cumsum acc A ++ cumsum (acc + osum A) B
  | acc, [], B => by simp [cumsum, osum]
  | acc, none :: A, B => by
    simp [cumsum, cumsum_append acc A B, osum, List.filterMap_cons]
  | acc, some a :: A, B => by
    simp [cumsum, cumsum_append (acc + a) A B, osum, List.filterMap_cons, add_assoc]

theorem cumsum_getElem? : ∀ (xs : List (Option Int)) (acc : Int) (i : Nat),
    (cumsum acc xs)[i]? = (xs[i]?).map (Option.map (fun _ => acc + osum (xs.take (i + 1))))
  | [], acc, i => by simp [cumsum]
  | x :: xs, acc, 0 => by
    rcases x with _ | a <;> simp [cumsum, osum, List.filterMap_cons]
  | x :: xs, acc, (i+1) => by
    rcases x with _ | a
    · simp [cumsum, cumsum_getElem? xs acc i, osum, List.filterMap_cons, List.take_succ_cons]
    · simp [cumsum, cumsum_getElem? xs (acc + a) i, osum, List.filterMap_cons,
        List.take_succ_cons, add_assoc]

theorem osum_map_amount (L : List Row) : osum (L.map (·.amount)) = sumOpt L := by
  rw [osum, sumOpt, List.filterMap_map]
  rfl

/-! ## Support lemmas: category partition (`groupby`) -/

theorem sumOpt_cats : ∀ (ks : List String), ks.Nodup →
    ∀ (L : List Row), (∀ r ∈ L, r.category ∈ ks) →
      (ks.map (fun c => sumOpt (L.filter (fun r => r.category == c)))).sum = sumOpt L := by
  intro ks
  induction ks with
  | nil =>
    intro _ L hcov
    have hL : L = [] := by
      cases L with
      | nil => rfl
      | cons r L => exact absurd (hcov r (List.mem_cons_self _ _)) (List.not_mem_nil _)
    subst hL; rfl
  | cons k ks ih =>
    intro hnd L hcov
    have hnd' := List.nodup_cons.mp hnd
    have hsplit := sumOpt_filter_split (fun r => r.category == k) L
    rw [List.map_cons, List.sum_cons]
    have hmap : ∀ c ∈ ks, sumOpt (L.filter (fun r => r.category == c))
        = sumOpt ((L.filter (fun r => !(r.category == k))).filter (fun r => r.category == c)) := by
      intro c hc
      have hck : c ≠ k := fun h => hnd'.1 (h ▸ hc)
      rw [List.filter_filter]
      refine congrArg sumOpt (List.filter_congr ?_)
      intro r _
      by_cases hcc : r.category = c
      · have hk : (r.category == k) = false := beq_eq_false_iff_ne.mpr (by rw [hcc]; exact hck)
        have hc' : (r.category == c) = true := beq_iff_eq.mpr hcc
        rw [hc', hk]; rfl
      · have hc' : (r.category == c) = false := beq_eq_false_iff_ne.mpr hcc
        rw [hc']; rfl
    rw [List.map_congr_left hmap]
    rw [ih hnd'.2 (L.filter (fun r => !(r.category == k))) ?cov]
    · omega
    case cov =>
      intro r hr
      have hrL := List.mem_filter.mp hr
      rcases List.mem_cons.mp (hcov r hrL.1) with h3 | h3
      · exfalso
        have : (r.category == k) = false := by
          cases h : (r.category == k)
          · rfl
          · rw [h] at hrL; exact absurd hrL.2 (by simp)
        exact absurd (beq_iff_eq.mpr h3) (by rw [this]; simp)
      · exact h3

theorem byCatSum_values (L : List Row) :
    ((byCatSum L).map Prod.snd).sum = sumOpt L := by
  rw [byCatSum, List.map_map]
  exact sumOpt_cats _ (nodup_uniqueFirst _) L
    (fun r hr => mem_uniqueFirst.mpr (List.mem_map_of_mem _ hr))

/-! ## Support lemmas: period-selector orderings -/

theorem pairwise_gt_availableYears (df : List Row) :
    (availableYears df).Pairwise (fun a b => a > b) := by
  have hs : (availableYears df).Pairwise (fun a b : Int => b ≤ a) :=
    List.sorted_insertionSort (fun a b : Int => b ≤ a) (uniqueFirst (df.map rowYear))
  have hnd : (availableYears df).Nodup :=
    ((List.perm_insertionSort (fun a b : Int => b ≤ a) _).nodup_iff).mpr (nodup_uniqueFirst _)
  exact List.Pairwise.imp₂ (fun a b h1 h2 => lt_of_le_of_ne h1 (fun h => h2 h.symm)) hs hnd

theorem mem_availableYears {df : List Row} {y : Int} :
    y ∈ availableYears df ↔ ∃ r ∈ df, rowYear r = y := by
  rw [availableYears, List.Perm.mem_iff (List.perm_insertionSort _ _), mem_uniqueFirst]
  constructor
  · intro h
    rcases List.mem_map.mp h with ⟨r, hr, hy⟩
    exact ⟨r, hr, hy⟩
  · rintro ⟨r, hr, hy⟩
    exact hy ▸ List.mem_map_of_mem _ hr

theorem uniqueFirstAux_map_comm [DecidableEq α] [DecidableEq β] (f : α → β) (g : β → α) :
    ∀ (l seen : List α), (∀ x ∈ l, g (f x) = x) → (∀ x ∈ seen, g (f x) = x) →
      uniqueFirstAux (seen.map f) (l.map f) = (uniqueFirstAux seen l).map f
  | [], _, _, _ => rfl
  | a :: l, seen, hl, hseen => by
    have hmem : (f a ∈ seen.map f) ↔ (a ∈ seen) := by
      constructor
      · intro h
        rcases List.mem_map.mp h with ⟨b, hb, hfb⟩
        have hba : b = a := by
          rw [← hseen b hb, hfb, hl a (List.mem_cons_self _ _)]
        exact hba ▸ hb
      · exact fun h => List.mem_map_of_mem f h
    by_cases ha : a ∈ seen
    · simp only [List.map_cons, uniqueFirstAux, if_pos (hmem.mpr ha), if_pos ha]
      exact uniqueFirstAux_map_comm f g l seen
        (fun x hx => hl x (List.mem_cons_of_mem _ hx)) hseen
    · simp only [List.map_cons, uniqueFirstAux, if_neg (fun h => ha (hmem.mp h)), if_neg ha]
      rw [show (f a :: seen.map f) = (a :: seen).map f from rfl]
      rw [uniqueFirstAux_map_comm f g l (a :: seen)
        (fun x hx => hl x (List.mem_cons_of_mem _ hx))
        (fun x hx => by
          rcases List.mem_cons.mp hx with rfl | hx
          · exact hl x (List.mem_cons_self _ _)
          · exact hseen x hx)]

theorem months_pairwise (df : List Row) (y : Int)
    (hv : ∀ r ∈ df, 1 ≤ r.date.month ∧ r.date.month ≤ 12)
    (hs : df.Pairwise (fun a b => dateLe a.date b.date = true)) :
    (availableMonths df y).Pairwise (fun a b => monthIndex a < monthIndex b) := by
  set ys := df.filter (fun r => rowYear r == y) with hys
  have hys_pw : ys.Pairwise (fun a b => dateLe a.date b.date = true) := hs.filter _
  have hys_y : ∀ r ∈ ys, rowYear r = y := by
    intro r hr
    exact beq_iff_eq.mp (List.mem_filter.mp hr).2
  have hm : ys.Pairwise (fun a b => a.date.month ≤ b.date.month) := by
    refine List.Pairwise.imp_of_mem ?_ hys_pw
    intro a b ha hb hle
    have hya : a.date.year = y := hys_y a ha
    have hyb : b.date.year = y := hys_y b hb
    rw [dateLe_iff] at hle
    omega
  have hm2 : (ys.map (fun r => r.date.month)).Pairwise (fun a b => a ≤ b) :=
    List.pairwise_map.mpr hm
  have hvm : ∀ x ∈ ys.map (fun r => r.date.month), monthIndex (monthName x) = x := by
    intro x hx
    rcases List.mem_map.mp hx with ⟨r, hr, rfl⟩
    have h12 := hv r (List.mem_filter.mp hr).1
    exact monthIndex_monthName h12.1 h12.2
  have hcomm : uniqueFirst ((ys.map (fun r => r.date.month)).map monthName)
      = (uniqueFirst (ys.map (fun r => r.date.month))).map monthName := by
    have h := uniqueFirstAux_map_comm monthName monthIndex
      (ys.map (fun r => r.date.month)) [] hvm (by intro x hx; cases hx)
    simpa [uniqueFirst] using h
  have heq : availableMonths df y
      = (uniqueFirst (ys.map (fun r => r.date.month))).map monthName := by
    rw [availableMonths, ← hcomm, List.map_map]
    rfl
  rw [heq]
  have hu_le : (uniqueFirst (ys.map (fun r => r.date.month))).Pairwise (· ≤ ·) :=
    List.Pairwise.sublist (uniqueFirst_sublist _) hm2
  have hu_nd : (uniqueFirst (ys.map (fun r => r.date.month))).Nodup := nodup_uniqueFirst _
  have hu_lt : (uniqueFirst (ys.map (fun r => r.date.month))).Pairwise (· < ·) :=
    List.Pairwise.imp₂ (fun a b h1 h2 => lt_of_le_of_ne h1 h2) hu_le hu_nd
  refine List.pairwise_map.mpr ?_
  refine List.Pairwise.imp_of_mem ?_ hu_lt
  intro a b ha hb hab
  have hva : monthIndex (monthName a) = a :=
    hvm a (List.Sublist.mem ha (uniqueFirst_sublist _))
  have hvb : monthIndex (monthName b) = b :=
    hvm b (List.Sublist.mem hb (uniqueFirst_sublist _))
  rw [hva, hvb]
  exact hab

theorem mem_availableMonths {df : List Row} {y : Int} {s : String} :
    s ∈ availableMonths df y ↔ ∃ r ∈ df, rowYear r = y ∧ rowMonth r = s := by
  rw [availableMonths, mem_uniqueFirst]
  constructor
  · intro h
    rcases List.mem_map.mp h with ⟨r, hr, hm⟩
    have hr' := List.mem_filter.mp hr
    exact ⟨r, hr'.1, beq_iff_eq.mp hr'.2, hm⟩
  · rintro ⟨r, hr, hy, hm⟩
    exact hm ▸ List.mem_map_of_mem _ (List.mem_filter.mpr ⟨hr, beq_iff_eq.mpr hy⟩)

/-! ## Claim C1 -/

/-- C1: for every ledger and every selected (year, month), the current-balance
scalar equals initial investment plus income-to-date minus expense-to-date,
exactly, over the exact NaN-skipping sums the code computes (app.py:70-73). -/
theorem claim_C1 (df : List Row) (y : Int) (m : String) :
    current_balance df y m
        = sumOpt (df.filter (fun r => r.type == "Initial"))
          + sumOpt (df.filter (fun r => dateLeOpt r.date (periodEnd df y m) && r.type == "Income"))
          - sumOpt (df.filter (fun r => dateLeOpt r.date (periodEnd df y m) && r.type == "Expense"))
    ∧ current_balance df y m
        = initial_investment df + income_till_now df y m - expense_till_now df y m :=
  ⟨rfl, rfl⟩

/-! ## Claim C2 -/

/-- C2 (amended): `load_data`'s error path is taken exactly when the `Date`
column is missing, the `Amount (PKR)` column is missing, or some row's date is
unparseable; the required columns `Type`, `Category`, `Description` are not
checked, and one bad date among parseable ones already fails.  On success the
full ledger is returned (no partial result); on failure the caught exception
is replaced by an empty ledger. -/
theorem claim_C2 (t : RawTable) :
    (isOkB (load_data_core t) = true ↔
      ("Date" ∈ t.cols ∧ "Amount (PKR)" ∈ t.cols ∧
        ∀ row ∈ t.rows, (parseDateCell t.cols row).isSome = true))
    ∧ (∀ l, load_data_core t = Except.ok l → l.length = t.rows.length ∧ load_data t = l)
    ∧ (∀ e, load_data_core t = Except.error e → load_data t = []) := by
  have hok : ∀ l, load_data_core t = Except.ok l →
      l.length = t.rows.length ∧ load_data t = l := by
    intro l hl
    have hld : load_data t = l := by unfold load_data; rw [hl]
    refine ⟨?_, hld⟩
    unfold load_data_core at hl
    split at hl
    · split at hl
      · split at hl
        · injection hl with hinj
          rw [← hinj]
          calc (List.insertionSort rowLe (t.rows.map (mkRow t.cols))).length
              = (t.rows.map (mkRow t.cols)).length := (List.perm_insertionSort _ _).length_eq
            _ = t.rows.length := List.length_map _ _
        · cases hl
      · cases hl
    · cases hl
  have herr : ∀ e, load_data_core t = Except.error e → load_data t = [] := by
    intro e he
    unfold load_data
    rw [he]
  refine ⟨?_, hok, herr⟩
  constructor
  · intro hOk
    unfold load_data_core at hOk
    split at hOk
    · split at hOk
      · split at hOk
        · rename_i h1 h2 h3
          exact ⟨h1, h3, List.all_eq_true.mp h2⟩
        · simp [isOkB] at hOk
      · simp [isOkB] at hOk
    · simp [isOkB] at hOk
  · rintro ⟨h1, h3, hall⟩
    have h2 : t.rows.all (fun row => (parseDateCell t.cols row).isSome) = true :=
      List.all_eq_true.mpr hall
    simp [load_data_core, h1, h2, h3, isOkB]

/-- C2 counterexample: the claim says normalization fails whenever the input
table lacks one of the required columns; on this table, which lacks `Type`,
`Category` and `Description`, `load_data` succeeds and returns a one-row
ledger. -/
theorem counterexample_C2 :
    "Type" ∉ c2table.cols ∧ "Category" ∉ c2table.cols ∧ "Description" ∉ c2table.cols
    ∧ isOkB (load_data_core c2table) = true
    ∧ load_data c2table ≠ [] := by decide

/-- Witness for `claim_C2` at a concrete table. -/
theorem witness_C2 : isOkB (load_data_core c2table) = true :=
  (claim_C2 c2table).1.mpr ⟨by decide, by decide, by decide⟩

/-! ## Claim C4 -/

/-- C4: a row whose amount is missing is in the filter output exactly for its
own (year, month); it contributes nothing to any of the sums (every sum the
aggregation computes is `sumOpt` of some predicate-filtered row list, and with
the selected rows held fixed, dropping the row changes no such sum); and in
the cumulative series it yields one missing entry at its own position while
every other entry is unchanged — excluded, not coerced to zero. -/
theorem claim_C4 (L1 L2 : List Row) (r : Row) (h : r.amount = none) :
    (∀ (y : Int) (m : String),
        r ∈ filtered_df (L1 ++ r :: L2) y m ↔ (rowYear r = y ∧ rowMonth r = m))
    ∧ (∀ p : Row → Bool,
        sumOpt ((L1 ++ r :: L2).filter p) = sumOpt ((L1 ++ L2).filter p))
    ∧ (∀ acc : Int,
        cumsum acc ((L1 ++ r :: L2).map (·.amount))
          = (cumsum acc ((L1 ++ L2).map (·.amount))).take L1.length
            ++ none :: (cumsum acc ((L1 ++ L2).map (·.amount))).drop L1.length) := by
  refine ⟨?_, ?_, ?_⟩
  · intro y m
    constructor
    · intro hmem
      have hpred := (List.mem_filter.mp hmem).2
      rw [Bool.and_eq_true] at hpred
      exact ⟨beq_iff_eq.mp hpred.1, beq_iff_eq.mp hpred.2⟩
    · rintro ⟨hy, hm⟩
      refine List.mem_filter.mpr ⟨?_, ?_⟩
      · exact List.mem_append.mpr (Or.inr (List.mem_cons_self _ _))
      · rw [Bool.and_eq_true]
        exact ⟨beq_iff_eq.mpr hy, beq_iff_eq.mpr hm⟩
  · intro p
    rw [List.filter_append, List.filter_append, List.filter_cons]
    cases hp : p r
    · simp
    · simp only [if_true]
      rw [sumOpt_append, sumOpt_append, sumOpt_cons_none h]
  · intro acc
    have hmap : (L1 ++ r :: L2).map (·.amount)
        = L1.map (·.amount) ++ none :: L2.map (·.amount) := by
      rw [List.map_append, List.map_cons, h]
    rw [hmap, List.map_append, cumsum_append, cumsum_append]
    have hlen : (cumsum acc (L1.map (·.amount))).length = L1.length := by
      rw [cumsum_length, List.length_map]
    rw [List.take_left' hlen, List.drop_left' hlen]
    rfl

/-- Witness for `claim_C4` at concrete rows: the missing-amount row is in its
period's filter output, and the income sum with it present equals the sum
without it. -/
theorem witness_C4 :
    (c4bad ∈ filtered_df ([c4a] ++ c4bad :: [c4b]) 2024 "January"
      ↔ (rowYear c4bad = 2024 ∧ rowMonth c4bad = "January"))
    ∧ sumOpt (([c4a] ++ c4bad :: [c4b]).filter (fun x => x.type == "Expense"))
        = sumOpt (([c4a] ++ [c4b]).filter (fun x => x.type == "Expense")) :=
  ⟨(claim_C4 [c4a] [c4b] c4bad rfl).1 2024 "January",
   (claim_C4 [c4a] [c4b] c4bad rfl).2.1 (fun x => x.type == "Expense")⟩

/-! ## Claim C5 -/

/-- C5: a (year, month) matched by no ledger row yields the empty filtered
set, zero to-date sums, a current balance equal to the full-ledger initial
investment, empty category breakdowns and an empty cumulative series — and
the aggregation is total, so no error can occur. -/
theorem claim_C5 (df : List Row) (y : Int) (m : String)
    (h : ∀ r ∈ df, ¬(rowYear r = y ∧ rowMonth r = m)) :
    filtered_df df y m = []
    ∧ income_till_now df y m = 0
    ∧ expense_till_now df y m = 0
    ∧ current_balance df y m = initial_investment df
    ∧ income_by_cat df y m = []
    ∧ expense_by_cat df y m = []
    ∧ cumulative_balance df y m = [] := by
  have hf : filtered_df df y m = [] := by
    rw [filtered_df, List.filter_eq_nil_iff]
    intro r hr hb
    rw [Bool.and_eq_true] at hb
    exact h r hr ⟨beq_iff_eq.mp hb.1, beq_iff_eq.mp hb.2⟩
  have hpe : periodEnd df y m = none := by rw [periodEnd, hf]; rfl
  have hnone : ∀ s : String,
      df.filter (fun r => dateLeOpt r.date (periodEnd df y m) && r.type == s) = [] := by
    intro s
    rw [hpe, List.filter_eq_nil_iff]
    intro r _ hb
    rw [Bool.and_eq_true] at hb
    exact absurd hb.1 (by simp [dateLeOpt])
  have hinc : income_till_now df y m = 0 := by
    unfold income_till_now
    rw [hnone "Income"]
    rfl
  have hexp : expense_till_now df y m = 0 := by
    unfold expense_till_now
    rw [hnone "Expense"]
    rfl
  refine ⟨hf, hinc, hexp, ?_, ?_, ?_, ?_⟩
  · unfold current_balance
    rw [hinc, hexp]
    omega
  · unfold income_by_cat income_df
    rw [hf]
    rfl
  · unfold expense_by_cat expense_df
    rw [hf]
    rfl
  · unfold cumulative_balance
    rw [hf]
    rfl

/-- Witness for `claim_C5`: February 2024 matches no row of `c5df`, so the
current balance degrades to the initial investment. -/
theorem witness_C5 :
    current_balance c5df 2024 "February" = initial_investment c5df
    ∧ filtered_df c5df 2024 "February" = [] := by
  have h := claim_C5 c5df 2024 "February" (by decide)
  exact ⟨h.2.2.2.1, h.1⟩

/-! ## Claim C7 -/

/-- C7: `initial_investment` sums the amounts of all `Initial` rows of the
whole ledger with no date or period condition, and an `Initial` row dated
outside the selected period (in particular after it) still raises the current
balance of that period by its amount. -/
theorem claim_C7 (L1 L2 : List Row) (r : Row) (a : Int) (y : Int) (m : String)
    (ht : r.type = "Initial") (ha : r.amount = some a)
    (hp : ¬(rowYear r = y ∧ rowMonth r = m)) :
    (∀ df : List Row,
        initial_investment df = sumOpt (df.filter (fun x => x.type == "Initial")))
    ∧ initial_investment (L1 ++ r :: L2) = initial_investment (L1 ++ L2) + a
    ∧ current_balance (L1 ++ r :: L2) y m = current_balance (L1 ++ L2) y m + a := by
  have hpred : (rowYear r == y && rowMonth r == m) = false := by
    cases hb : (rowYear r == y && rowMonth r == m)
    · rfl
    · exfalso
      rw [Bool.and_eq_true] at hb
      exact hp ⟨beq_iff_eq.mp hb.1, beq_iff_eq.mp hb.2⟩
  have hfil : filtered_df (L1 ++ r :: L2) y m = filtered_df (L1 ++ L2) y m := by
    unfold filtered_df
    simp [List.filter_append, List.filter_cons, hpred]
  have hpe : periodEnd (L1 ++ r :: L2) y m = periodEnd (L1 ++ L2) y m := by
    unfold periodEnd
    rw [hfil]
  have hnotby : ∀ s : String, s ≠ "Initial" →
      ∀ e : Option Date,
        (L1 ++ r :: L2).filter (fun x => dateLeOpt x.date e && x.type == s)
          = (L1 ++ L2).filter (fun x => dateLeOpt x.date e && x.type == s) := by
    intro s hs e
    have hres : (r.type == s) = false := beq_eq_false_iff_ne.mpr (by rw [ht]; exact fun h => hs h.symm)
    simp [List.filter_append, List.filter_cons, hres]
  have hinc : income_till_now (L1 ++ r :: L2) y m = income_till_now (L1 ++ L2) y m := by
    unfold income_till_now
    rw [hpe, hnotby "Income" (by decide)]
  have hexp : expense_till_now (L1 ++ r :: L2) y m = expense_till_now (L1 ++ L2) y m := by
    unfold expense_till_now
    rw [hpe, hnotby "Expense" (by decide)]
  have hini : initial_investment (L1 ++ r :: L2) = initial_investment (L1 ++ L2) + a := by
    unfold initial_investment
    have hto : (r.type == "Initial") = true := beq_iff_eq.mpr ht
    rw [List.filter_append, List.filter_cons]
    rw [List.filter_append]
    simp only [hto, if_true]
    rw [sumOpt_append, sumOpt_append, sumOpt_cons_some ha]
    omega
  refine ⟨fun _ => rfl, hini, ?_⟩
  unfold current_balance
  rw [hini, hinc, hexp]
  omega

/-- Witness for `claim_C7`: an `Initial` row dated 2024-12-31 still adds its
amount to the January 2024 balance. -/
theorem witness_C7 :
    current_balance [c7a, c7r] 2024 "January" = current_balance [c7a] 2024 "January" + 100 :=
  (claim_C7 [c7a] [] c7r 100 2024 "January" rfl rfl (by decide)).2.2

/-! ## Claim C6 -/

/-- C6 (amended): summing the `income_by_cat` values gives exactly the sum of
amounts over the period's Income rows.  For expense the code takes the
absolute value of each per-category sum, so the breakdown total equals the sum
over categories of those magnitudes; it coincides with the plain sum of the
period's expense amounts whenever those amounts are all nonnegative (and is
refuted for mixed signs by `counterexample_C6`). -/
theorem claim_C6 (df : List Row) (y : Int) (m : String) :
    ((income_by_cat df y m).map Prod.snd).sum = sumOpt (income_df df y m)
    ∧ ((∀ r ∈ expense_df df y m, ∀ a : Int, r.amount = some a → 0 ≤ a) →
        ((expense_by_cat df y m).map Prod.snd).sum = sumOpt (expense_df df y m)) := by
  constructor
  · exact byCatSum_values _
  · intro hpos
    unfold expense_by_cat
    rw [List.map_map]
    have habs : ∀ c ∈ uniqueFirst ((expense_df df y m).map (·.category)),
        (Prod.snd ∘ fun c =>
            (c, |sumOpt ((expense_df df y m).filter (fun r => r.category == c))|)) c
          = sumOpt ((expense_df df y m).filter (fun r => r.category == c)) := by
      intro c _
      show |sumOpt _| = _
      refine abs_of_nonneg (sumOpt_nonneg ?_)
      intro r hr a ha
      exact hpos r (List.mem_filter.mp hr).1 a ha
    rw [List.map_congr_left habs]
    exact sumOpt_cats _ (nodup_uniqueFirst _) _
      (fun r hr => mem_uniqueFirst.mpr (List.mem_map_of_mem _ hr))

/-- C6 counterexample: with per-row expense amounts +5, -3 (category A) and
-4 (category B), the breakdown values total 6, while the absolute value of
the period's expense sum is 2 and the sum of the absolute per-row amounts is
12 — so the claimed identity fails under either reading for this sign
pattern. -/
theorem counterexample_C6 :
    ((expense_by_cat c6df 2024 "January").map Prod.snd).sum = 6
    ∧ |sumOpt (expense_df c6df 2024 "January")| = 2
    ∧ (((expense_df c6df 2024 "January").filterMap (·.amount)).map (fun a => |a|)).sum = 12
    ∧ ((expense_by_cat c6df 2024 "January").map Prod.snd).sum
        ≠ |sumOpt (expense_df c6df 2024 "January")|
    ∧ ((expense_by_cat c6df 2024 "January").map Prod.snd).sum
        ≠ (((expense_df c6df 2024 "January").filterMap (·.amount)).map (fun a => |a|)).sum := by
  decide

/-- Witness for `claim_C6` at a concrete ledger with nonnegative expenses. -/
theorem witness_C6 :
    ((income_by_cat c6pos 2024 "January").map Prod.snd).sum
        = sumOpt (income_df c6pos 2024 "January")
    ∧ ((expense_by_cat c6pos 2024 "January").map Prod.snd).sum
        = sumOpt (expense_df c6pos 2024 "January") :=
  ⟨(claim_C6 c6pos 2024 "January").1, (claim_C6 c6pos 2024 "January").2 (by decide)⟩

/-! ## Claim C8 -/

/-- C8 (amended): the cumulative series runs over exactly the filtered
period's rows; the entry at position `i` is the sum of the period's
non-missing amounts among the first `i+1` rows — an accumulation from zero at
period start, with no pre-period offset — except that a row with a missing
amount yields a missing entry.  Hence the final entry equals the sum of the
period's non-missing amounts whenever the period's last row has a non-missing
amount (without that proviso the claim fails: `counterexample_C8`). -/
theorem claim_C8 (df : List Row) (y : Int) (m : String) :
    (cumulative_balance df y m).length = (filtered_df df y m).length
    ∧ (∀ i : Nat, (cumulative_balance df y m)[i]?
        = ((filtered_df df y m)[i]?).map
            (fun r => r.amount.map (fun _ => sumOpt ((filtered_df df y m).take (i + 1)))))
    ∧ (∀ hne : filtered_df df y m ≠ [],
        ((filtered_df df y m).getLast hne).amount.isSome = true →
          (cumulative_balance df y m).getLast? = some (some (sumOpt (filtered_df df y m)))) := by
  have hlen : (cumulative_balance df y m).length = (filtered_df df y m).length := by
    rw [cumulative_balance, cumsum_length, List.length_map]
  have hidx : ∀ i : Nat, (cumulative_balance df y m)[i]?
      = ((filtered_df df y m)[i]?).map
          (fun r => r.amount.map (fun _ => sumOpt ((filtered_df df y m).take (i + 1)))) := by
    intro i
    rw [cumulative_balance, cumsum_getElem?, List.getElem?_map, ← List.map_take, osum_map_amount]
    cases hFi : (filtered_df df y m)[i]? with
    | none => rfl
    | some r => simp [zero_add]
  refine ⟨hlen, hidx, ?_⟩
  intro hne hsome
  have hnz : (filtered_df df y m).length ≠ 0 :=
    fun h0 => hne (List.length_eq_zero.mp h0)
  have hlt : (filtered_df df y m).length - 1 < (filtered_df df y m).length := by omega
  rw [List.getLast?_eq_getElem?, hlen, hidx ((filtered_df df y m).length - 1)]
  have hFlast : (filtered_df df y m)[(filtered_df df y m).length - 1]?
      = some ((filtered_df df y m).getLast hne) := by
    rw [List.getElem?_eq_getElem hlt, List.getLast_eq_getElem]
  rw [hFlast]
  have htake : (filtered_df df y m).take ((filtered_df df y m).length - 1 + 1)
      = filtered_df df y m :=
    List.take_of_length_le (by omega)
  rw [htake]
  rcases hsome' : ((filtered_df df y m).getLast hne).amount with _ | a
  · rw [hsome'] at hsome; cases hsome
  · simp
    exact ⟨a, hsome'⟩

/-- C8 counterexample: for a non-empty period whose last row has a missing
amount, the final entry of the cumulative series is missing (NaN), not the
sum (here 0) of the period's non-missing amounts. -/
theorem counterexample_C8 :
    filtered_df c8df 2024 "January" ≠ []
    ∧ (cumulative_balance c8df 2024 "January").getLast? = some none
    ∧ sumOpt (filtered_df c8df 2024 "January") = 0
    ∧ (cumulative_balance c8df 2024 "January").getLast?
        ≠ some (some (sumOpt (filtered_df c8df 2024 "January"))) := by
  decide

/-- Witness for `claim_C8`: on a period ending in a priced row the final
cumulative entry is the period sum. -/
theorem witness_C8 :
    (cumulative_balance c8good 2024 "January").getLast?
      = some (some (sumOpt (filtered_df c8good 2024 "January"))) :=
  (claim_C8 c8good 2024 "January").2.2 (by decide) (by decide)

/-! ## Claim C9 -/

/-- C9: the year selector lists the distinct years present, strictly
descending, and the month selector for a year lists the distinct months
present for that year; on a date-sorted ledger with calendar months (1..12)
that first-encounter order is chronological — strictly increasing month
number — not alphabetical. -/
theorem claim_C9 (df : List Row) :
    (availableYears df).Pairwise (fun a b => a > b)
    ∧ (∀ y : Int, y ∈ availableYears df ↔ ∃ r ∈ df, rowYear r = y)
    ∧ (∀ y : Int,
        (∀ r ∈ df, 1 ≤ r.date.month ∧ r.date.month ≤ 12) →
        df.Pairwise (fun a b => dateLe a.date b.date = true) →
          (availableMonths df y).Pairwise (fun a b => monthIndex a < monthIndex b))
    ∧ (∀ (y : Int) (s : String),
        s ∈ availableMonths df y ↔ ∃ r ∈ df, rowYear r = y ∧ rowMonth r = s) :=
  ⟨pairwise_gt_availableYears df,
   fun _ => mem_availableYears,
   fun y hv hs => months_pairwise df y hv hs,
   fun _ _ => mem_availableMonths⟩

/-- Witness for `claim_C9` at a concrete sorted ledger. -/
theorem witness_C9 :
    (availableMonths c9df 2024).Pairwise (fun a b => monthIndex a < monthIndex b)
    ∧ ("February" ∈ availableMonths c9df 2024
        ↔ ∃ r ∈ c9df, rowYear r = 2024 ∧ rowMonth r = "February") :=
  ⟨(claim_C9 c9df).2.2.1 2024 (by decide) (by decide),
   (claim_C9 c9df).2.2.2 2024 "February"⟩

/-! ## Claim C10 -/

/-- C10: `periodEnd` is the maximum date over all rows filtered into the
period — no type or amount restriction: every filtered row's date is below
it and it is attained by a filtered row.  Concretely, a February row of
unrecognized type with a missing amount extends `periodEnd` so that the
January income of 7 enters `income_till_now` for February, whereas without
that row the February period is empty and the sum is 0. -/
theorem claim_C10 :
    (∀ (df : List Row) (y : Int) (m : String) (r : Row),
        r ∈ filtered_df df y m → dateLeOpt r.date (periodEnd df y m) = true)
    ∧ (∀ (df : List Row) (y : Int) (m : String),
        filtered_df df y m ≠ [] →
          ∃ r ∈ filtered_df df y m, periodEnd df y m = some r.date)
    ∧ (c10note ∈ filtered_df c10df 2024 "February"
       ∧ c10note.amount = none ∧ c10note.type = "Note"
       ∧ income_till_now c10df 2024 "February" = 7
       ∧ income_till_now [c10inc] 2024 "February" = 0) := by
  refine ⟨?_, ?_, by decide⟩
  · intro df y m r hr
    exact periodEnd_dominates df y m hr
  · intro df y m h
    exact periodEnd_attained df y m h

/-- Witness for `claim_C10` at the concrete scenario ledger. -/
theorem witness_C10 :
    dateLeOpt c10note.date (periodEnd c10df 2024 "February") = true
    ∧ ∃ r ∈ filtered_df c10df 2024 "February",
        periodEnd c10df 2024 "February" = some r.date :=
  ⟨claim_C10.1 c10df 2024 "February" c10note (by decide),
   claim_C10.2.1 c10df 2024 "February" (by decide)⟩
